import Mathlib

/-!
Verification of the draft orchestration engine of `infinitedraft`.

The definitions below are a shallow embedding of `src/server/server.py`
(secondarily `src/app.py`).  Python's mutable lists and dicts become
immutable Lean lists with functional updates; `random.shuffle` and the
file-system card loaders are external effects and therefore appear as
explicit parameters (a pre-shuffled list, an abstract `loadPack` /
`gen` function).  JSON fields that may be absent become `Option`,
Python's falsy test on a string becomes a test against `""`, and the
integer-typed JSON fields are `Int` exactly as the code receives them.
Out-of-bounds list reads, which in Python raise and abort the request
before any mutation (possible only in states violating invariant I1 of
the specification), are modelled totally with `List.getD` defaults.
-/

namespace InfiniteDraft

/-- An item record as loaded from a `cards.csv` row: `name` and image `url`
(server.py line 68). -/
structure Card where
  name : String
  url : String
deriving DecidableEq, Repr

/-- A pack is a mutable ordered list of cards; here a Lean list. -/
abbrev Pack := List Card

/-- `PACK_SIZE = 14` (server.py line 30). -/
def PACK_SIZE : Nat := 14

/-- The global server-side game state of server.py (lines 34-54) that the
draft endpoints read and mutate:
`packs_rounds`, `packs_ready_rounds`, `current_round`, `TOTAL_ROUNDS`,
`decks_by_name` (a dict, modelled as an association list with unique keys
in insertion order), `players_count` (optional) and `len(connected_sids)`. -/
structure ServerState where
  packsRounds : List (List Pack)
  packsReadyRounds : List (List Bool)
  currentRound : Nat
  totalRounds : Nat
  decksByName : List (String × List Card)
  playersCount : Option Nat
  connectedCount : Nat
deriving DecidableEq, Repr

/-- `decks_by_name.get(name, [])`: value of the first (unique) matching key,
`[]` when absent. -/
def getDeck : List (String × List Card) → String → List Card
  | [], _ => []
  | (k, d) :: rest, n => if k = n then d else getDeck rest n

/-- `decks_by_name.setdefault(player_name, []).append(card)` (server.py
line 346): append `card` to the entry for `player`, inserting a fresh entry
at the end of the dict when the key is absent. -/
def updateDeck : List (String × List Card) → String → Card → List (String × List Card)
  | [], n, c => [(n, [c])]
  | (k, d) :: rest, n, c =>
    if k = n then (k, d ++ [c]) :: rest else (k, d) :: updateDeck rest n c

/-- `next((i for i, c in enumerate(pack) if c['name'] == card_name), None)`
(server.py line 339): index of the first card with the given name. -/
def findCardIndex (cardName : String) : List Card → Option Nat
  | [] => none
  | c :: rest =>
    if c.name = cardName then some 0 else (findCardIndex cardName rest).map (· + 1)

/-- Round resolution shared by `click` and `claim_pack` (server.py
lines 325-328 and 428-431): use the client-supplied round when it is an
integer index of an already materialized round, else the authoritative
`current_round`. -/
def resolveTargetRound (requestedRound : Option Int) (s : ServerState) : Nat :=
  match requestedRound with
  | some r => if 0 ≤ r ∧ r < (s.packsRounds.length : Int) then r.toNat else s.currentRound
  | none => s.currentRound

/-- The JSON body of a `/click` request (server.py lines 311-315).  The
`player`/`name` and `card`/`card_name`/`cardName` alternatives are collapsed
into one optional field each; Python's falsy test then corresponds to the
value `getD ""` being `""`. -/
structure ClickRequest where
  player : Option String
  card : Option String
  packIndex : Option Int
  round : Option Int
deriving DecidableEq, Repr

/-- The error responses `/click` can produce, in source order
(server.py lines 317-342). -/
inductive ClickError
  | noPlayerName
  | noCardName
  | noPacksLoaded
  | packIndexRequired
  | invalidPackIndex
  | cardNotFound
deriving DecidableEq, Repr

/-- The success JSON of `/click` (server.py lines 392-407): `advanced`,
then `next_pack_index` when advanced or `waiting_on` when not (one numeric
field `nextIndex` here), `round_advanced`, `current_round`, `deck`. -/
structure ClickOk where
  advanced : Bool
  nextIndex : Nat
  roundAdvanced : Bool
  currentRound : Nat
  deck : List Card
deriving DecidableEq, Repr

/-- Outcome of a `/click` call. -/
inductive ClickResult
  | error : ClickError → ClickResult
  | ok : ClickOk → ClickResult
deriving DecidableEq, Repr

/-- The part of `click` after validation succeeded (server.py lines 344-407),
with the target round `t`, pack index `i` and found card index `j` already
resolved.  `gen numPlayers roundIndex` stands for
`generate_round_packs(num_players, next_round_index, set_name=chosen_set_name)`,
whose randomness and file access are external.  The two nested advancement
`if`s of lines 353-359 are written as one conjunction: in the source the
outer-but-not-inner case performs no state change and leaves
`round_advanced` false, exactly like the outer-false case (only the
unmodelled best-effort `draft_complete` notification differs). -/
def pickFinal (gen : Nat → Nat → List Pack) (player : String) (t i j : Nat)
    (s : ServerState) : ServerState × ClickResult :=
  let roundPacks := s.packsRounds.getD t []
  let pack := roundPacks.getD i []
  let card := pack.getD j ⟨"", ""⟩
  -- card = current_pack.pop(card_index); decks_by_name[...].append(card);
  -- round_ready[pack_index] = True   (lines 345-349)
  let s1 : ServerState :=
    { s with
      packsRounds := s.packsRounds.set t (roundPacks.set i (pack.eraseIdx j)),
      packsReadyRounds :=
        s.packsReadyRounds.set t ((s.packsReadyRounds.getD t []).set i true),
      decksByName := updateDeck s.decksByName player card }
  let numPlayers := s.playersCount.getD s.connectedCount
  -- next_index = (pack_index + 1) % len(round_packs)  (line 376);
  -- the pop does not change the number of packs in the round
  let nextIndex0 := if roundPacks.length = 0 then 0 else (i + 1) % roundPacks.length
  if t = s.currentRound ∧ (s1.packsRounds.getD t []).all (fun p => p.length == 0)
      ∧ s.currentRound + 1 < s.totalRounds then
    -- lines 356-370: materialize the next round and advance
    let s2 : ServerState :=
      { s1 with
        packsRounds := s1.packsRounds ++ [gen numPlayers (s.currentRound + 1)],
        packsReadyRounds := s1.packsReadyRounds ++ [List.replicate numPlayers false],
        currentRound := s.currentRound + 1 }
    if s2.currentRound < s2.packsRounds.length
        ∧ 0 < (s2.packsRounds.getD s2.currentRound []).length then
      -- lines 383-386: reinterpret the index against the new current round
      (s2, .ok { advanced := true,
                 nextIndex := i % (s2.packsRounds.getD s2.currentRound []).length,
                 roundAdvanced := true, currentRound := s2.currentRound,
                 deck := getDeck s2.decksByName player })
    else
      (s2, .ok { advanced := false, nextIndex := nextIndex0, roundAdvanced := true,
                 currentRound := s2.currentRound, deck := getDeck s2.decksByName player })
  else
    -- lines 380-382: consume the next slot's ready flag when set
    if (s1.packsReadyRounds.getD t []).getD nextIndex0 false = true then
      let s3 : ServerState :=
        { s1 with
          packsReadyRounds :=
            s1.packsReadyRounds.set t
              ((s1.packsReadyRounds.getD t []).set nextIndex0 false) }
      (s3, .ok { advanced := true, nextIndex := nextIndex0, roundAdvanced := false,
                 currentRound := s.currentRound, deck := getDeck s3.decksByName player })
    else
      (s1, .ok { advanced := false, nextIndex := nextIndex0, roundAdvanced := false,
                 currentRound := s.currentRound, deck := getDeck s1.decksByName player })

/-- The `/click` endpoint (server.py lines 302-407).  Validation happens in
source order before any mutation; the successful tail is `pickFinal`. -/
def click (gen : Nat → Nat → List Pack) (req : ClickRequest) (s : ServerState) :
    ServerState × ClickResult :=
  if req.player.getD "" = "" then (s, .error .noPlayerName)
  else if req.card.getD "" = "" then (s, .error .noCardName)
  else if s.packsRounds = [] then (s, .error .noPacksLoaded)
  else
    let t := resolveTargetRound req.round s
    let roundPacks := s.packsRounds.getD t []
    match req.packIndex with
    | none => (s, .error .packIndexRequired)
    | some pi =>
      if pi < 0 ∨ (roundPacks.length : Int) ≤ pi then (s, .error .invalidPackIndex)
      else
        match findCardIndex (req.card.getD "") (roundPacks.getD pi.toNat []) with
        | none => (s, .error .cardNotFound)
        | some j => pickFinal gen (req.player.getD "") t pi.toNat j s

/-- The JSON body of a `/claim_pack` request (server.py lines 417-420). -/
structure ClaimRequest where
  packIndex : Option Int
  name : Option String
  round : Option Int
deriving DecidableEq, Repr

/-- The error responses `/claim_pack` can produce, in source order
(server.py lines 422-437). -/
inductive ClaimError
  | packIndexRequired
  | noPacksLoaded
  | invalidPackIndex
  | notReady
deriving DecidableEq, Repr

/-- The success JSON of `/claim_pack` (server.py lines 444-445). -/
structure ClaimOk where
  packIndex : Nat
  pack : List Card
  packsReady : List Bool
  deck : List Card
deriving DecidableEq, Repr

/-- Outcome of a `/claim_pack` call. -/
inductive ClaimResult
  | error : ClaimError → ClaimResult
  | ok : ClaimOk → ClaimResult
deriving DecidableEq, Repr

/-- The `/claim_pack` endpoint (server.py lines 410-445). -/
def claim_pack (req : ClaimRequest) (s : ServerState) : ServerState × ClaimResult :=
  match req.packIndex with
  | none => (s, .error .packIndexRequired)
  | some pi =>
    if s.packsRounds = [] then (s, .error .noPacksLoaded)
    else
      let t := resolveTargetRound req.round s
      if pi < 0 ∨ ((s.packsRounds.getD t []).length : Int) ≤ pi then
        (s, .error .invalidPackIndex)
      else if (s.packsReadyRounds.getD t []).getD pi.toNat false = false then
        (s, .error .notReady)
      else
        let ready2 := (s.packsReadyRounds.getD t []).set pi.toNat false
        ({ s with packsReadyRounds := s.packsReadyRounds.set t ready2 },
         .ok { packIndex := pi.toNat,
               pack := (s.packsRounds.getD t []).getD pi.toNat [],
               packsReady := ready2,
               deck := getDeck s.decksByName (req.name.getD "") })

/-- The fallback (FlatPool) loop of `generate_round_packs` (server.py
lines 158-168), after `random.shuffle`: the pre-shuffled pool is the
argument.  Each iteration slices `PACK_SIZE` cards off the front; when the
remainder is shorter than `PACK_SIZE` the just-sliced cards are recycled to
the end instead of being dropped. -/
def fallbackPacks (shuffled : List Card) : Nat → List Pack
  | 0 => []
  | n + 1 =>
    let pack := shuffled.take PACK_SIZE
    let rest :=
      if PACK_SIZE ≤ shuffled.length then shuffled.drop PACK_SIZE else shuffled ++ pack
    pack :: fallbackPacks rest n

/-- `generate_round_packs` (server.py lines 142-169).  `chosenPackFolders`
and `setName` model the globals (`[]` and `""` standing for Python's falsy
`None`/empty); `loadPack` models `load_pack_cards(set_name, ·)` (a fixed,
un-shuffled card sequence per folder); `shuffledPool` models the
freshly shuffled copy of `all_cards`. -/
def generate_round_packs (chosenPackFolders : List String) (setName : String)
    (loadPack : String → List Card) (shuffledPool : List Card)
    (numPlayers roundIndex : Nat) : List Pack :=
  if chosenPackFolders ≠ [] ∧ setName ≠ "" then
    ((chosenPackFolders.drop (roundIndex * numPlayers)).take numPlayers).map loadPack
  else
    fallbackPacks shuffledPool numPlayers

/-- The pre-selection loop of `host_go` (server.py lines 222-229): starting
from `i = 0`, repeatedly append `shuffled[i % len(shuffled)]` until
`totalNeeded` identifiers are chosen. -/
def chosenLoop (shuffled : List String) (i : Nat) : Nat → List String
  | 0 => []
  | n + 1 => shuffled.getD (i % shuffled.length) "" :: chosenLoop shuffled (i + 1) n

/-- `chosen_pack_folders` as computed once per session by `host_go`
(server.py lines 218-230): `players * TOTAL_ROUNDS` folder names, cycling
through the shuffled catalog. -/
def chosenFolders (shuffledCatalog : List String) (totalNeeded : Nat) : List String :=
  chosenLoop shuffledCatalog 0 totalNeeded

/-- All cards across all decks, in dict order. -/
def allDeckCards (d : List (String × List Card)) : List Card :=
  (d.map Prod.snd).join

section Helpers

lemma coe_append (s t : List Card) : (↑(s ++ t) : Multiset Card) = ↑s + ↑t := rfl

lemma coe_cons (a : Card) (l : List Card) :
    (↑(a :: l) : Multiset Card) = a ::ₘ (↑l : Multiset Card) := rfl

lemma singleton_eq_coe (c : Card) : ({c} : Multiset Card) = (↑([c] : List Card)) := rfl

lemma getDeck_updateDeck_self (d : List (String × List Card)) (n : String) (c : Card) :
    getDeck (updateDeck d n c) n = getDeck d n ++ [c] := by
  induction d with
  | nil => simp [updateDeck, getDeck]
  | cons hd tl ih =>
    obtain ⟨k, dk⟩ := hd
    by_cases hk : k = n
    · simp [updateDeck, getDeck, hk]
    · simp [updateDeck, getDeck, hk, ih]

lemma getDeck_updateDeck_ne (d : List (String × List Card)) (n m : String) (c : Card)
    (h : m ≠ n) : getDeck (updateDeck d n c) m = getDeck d m := by
  induction d with
  | nil => simp [updateDeck, getDeck, Ne.symm h]
  | cons hd tl ih =>
    obtain ⟨k, dk⟩ := hd
    by_cases hk : k = n
    · subst hk
      simp [updateDeck, getDeck, Ne.symm h]
    · by_cases hm : k = m
      · subst hm
        simp [updateDeck, getDeck, hk]
      · simp [updateDeck, getDeck, hk, hm, ih]

lemma allDeckCards_updateDeck (d : List (String × List Card)) (n : String) (c : Card) :
    (↑(allDeckCards (updateDeck d n c)) : Multiset Card) = ↑(allDeckCards d) + {c} := by
  induction d with
  | nil => simp [updateDeck, allDeckCards]
  | cons hd tl ih =>
    obtain ⟨k, dk⟩ := hd
    by_cases hk : k = n
    · simp only [updateDeck, if_pos hk, allDeckCards, List.map_cons, List.join_cons,
        singleton_eq_coe, coe_append]
      abel
    · simp only [updateDeck, if_neg hk, allDeckCards, List.map_cons, List.join_cons,
        coe_append]
      simp only [allDeckCards, singleton_eq_coe] at ih
      rw [ih]
      abel

lemma findCardIndex_lt (cardName : String) (l : List Card) (j : Nat)
    (h : findCardIndex cardName l = some j) : j < l.length := by
  induction l generalizing j with
  | nil => simp [findCardIndex] at h
  | cons c rest ih =>
    simp only [findCardIndex] at h
    split at h
    · simp only [Option.some.injEq] at h
      subst h
      simp
    · cases hrec : findCardIndex cardName rest with
      | none => rw [hrec] at h; simp at h
      | some j0 =>
        rw [hrec] at h
        simp only [Option.map, Option.some.injEq] at h
        subst h
        have := ih j0 hrec
        simp only [List.length_cons]
        omega

lemma findCardIndex_name (cardName : String) (l : List Card) (j : Nat) (d : Card)
    (h : findCardIndex cardName l = some j) : (l.getD j d).name = cardName := by
  induction l generalizing j with
  | nil => simp [findCardIndex] at h
  | cons c rest ih =>
    simp only [findCardIndex] at h
    split at h
    · rename_i hc
      simp only [Option.some.injEq] at h
      subst h
      simpa using hc
    · cases hrec : findCardIndex cardName rest with
      | none => rw [hrec] at h; simp at h
      | some j0 =>
        rw [hrec] at h
        simp only [Option.map, Option.some.injEq] at h
        subst h
        simpa using ih j0 hrec

lemma coe_join_set (l : List (List Card)) (n : Nat) (x : List Card) (h : n < l.length) :
    (↑((l.set n x).join) : Multiset Card) + ↑(l.getD n []) =
      (↑l.join : Multiset Card) + ↑x := by
  induction l generalizing n with
  | nil => simp at h
  | cons hd tl ih =>
    cases n with
    | zero =>
      simp only [List.set_cons_zero, List.join_cons, List.getD_cons_zero]
      rw [coe_append, coe_append]
      abel
    | succ m =>
      simp only [List.set_cons_succ, List.join_cons, List.getD_cons_succ]
      have hm : m < tl.length := by simpa using h
      have key := ih m hm
      rw [coe_append, coe_append]
      calc (↑hd + ↑(tl.set m x).join : Multiset Card) + ↑(tl.getD m []) =
            ↑hd + (↑(tl.set m x).join + ↑(tl.getD m [])) := by abel
        _ = ↑hd + (↑tl.join + ↑x) := by rw [key]
        _ = ↑hd + ↑tl.join + ↑x := by abel

lemma coe_eraseIdx_add (l : List Card) (j : Nat) (h : j < l.length) :
    (↑(l.eraseIdx j) : Multiset Card) + {l.getD j ⟨"", ""⟩} = ↑l := by
  induction l generalizing j with
  | nil => simp at h
  | cons c rest ih =>
    cases j with
    | zero =>
      simp only [List.eraseIdx_cons_zero, List.getD_cons_zero]
      rw [singleton_eq_coe, ← coe_append]
      exact Multiset.coe_eq_coe.mpr (List.perm_append_singleton c rest)
    | succ m =>
      have hm : m < rest.length := by simpa using h
      simp only [List.eraseIdx_cons_succ, List.getD_cons_succ]
      have key := ih m hm
      rw [coe_cons, coe_cons]
      calc (c ::ₘ ↑(rest.eraseIdx m) : Multiset Card) + {rest.getD m ⟨"", ""⟩} =
            c ::ₘ (↑(rest.eraseIdx m) + {rest.getD m ⟨"", ""⟩}) := by
              rw [Multiset.cons_add]
        _ = c ::ₘ ↑rest := by rw [key]

lemma succ_mod_ne (i n : Nat) (h1 : i < n) (h2 : 2 ≤ n) : (i + 1) % n ≠ i := by
  rcases Nat.lt_or_ge (i + 1) n with hlt | hge
  · rw [Nat.mod_eq_of_lt hlt]
    omega
  · have : i + 1 = n := by omega
    rw [this, Nat.mod_self]
    omega

/-- `pickFinal` always reports success. -/
lemma pickFinal_ok (gen : Nat → Nat → List Pack) (player : String) (t i j : Nat)
    (s : ServerState) : ∃ r, (pickFinal gen player t i j s).2 = ClickResult.ok r := by
  simp only [pickFinal]
  repeat first | (exact ⟨_, rfl⟩) | split

lemma getD_set_self {α : Type} (l : List α) (n : Nat) (a d : α) (h : n < l.length) :
    (l.set n a).getD n d = a := by
  simp [List.getD_eq_getElem?_getD, List.getElem?_set_self, h]

lemma getD_set_ne {α : Type} (l : List α) (n m : Nat) (a d : α) (h : n ≠ m) :
    (l.set n a).getD m d = l.getD m d := by
  simp [List.getD_eq_getElem?_getD, List.getElem?_set_ne h]

lemma getD_append_left {α : Type} (l1 l2 : List α) (n : Nat) (d : α) (h : n < l1.length) :
    (l1 ++ l2).getD n d = l1.getD n d := by
  simp [List.getD_eq_getElem?_getD, List.getElem?_append_left h]

lemma lt_length_of_getD_length_pos {α : Type} (l : List (List α)) (n : Nat)
    (h : 0 < (l.getD n []).length) : n < l.length := by
  by_contra h2
  push_neg at h2
  rw [List.getD_eq_default _ _ h2] at h
  simp at h

/-- Every `/click` call either reports one of the six errors, leaving the
state untouched, or reports success. -/
lemma click_cases (gen : Nat → Nat → List Pack) (req : ClickRequest) (s : ServerState) :
    (∃ e, click gen req s = (s, ClickResult.error e)) ∨
      (∃ r, (click gen req s).2 = ClickResult.ok r) := by
  simp only [click]
  repeat first
    | (exact Or.inl ⟨_, rfl⟩)
    | (exact Or.inr (pickFinal_ok _ _ _ _ _ _))
    | split

/-- When all validation of a `/click` request succeeds (player and card
names non-empty, pack index in bounds for the target round, card found at
index `j`), `click` is the mutation tail `pickFinal`. -/
lemma click_eq_pickFinal (gen : Nat → Nat → List Pack) (req : ClickRequest)
    (s : ServerState) (player cn : String) (i j : Nat)
    (hp : req.player = some player) (hpne : player ≠ "")
    (hc : req.card = some cn) (hcne : cn ≠ "")
    (hpi : req.packIndex = some ((i : Nat) : Int))
    (hi : i < (s.packsRounds.getD (resolveTargetRound req.round s) []).length)
    (hj : findCardIndex cn
      ((s.packsRounds.getD (resolveTargetRound req.round s) []).getD i []) = some j) :
    click gen req s = pickFinal gen player (resolveTargetRound req.round s) i j s := by
  have hne : s.packsRounds ≠ [] := by
    intro h0
    rw [h0] at hi
    simp [List.getD] at hi
  have htoNat : ((i : Int)).toNat = i := Int.toNat_natCast i
  have hbound : ¬((i : Int) < 0 ∨
      (((s.packsRounds.getD (resolveTargetRound req.round s) []).length : Int) ≤ (i : Int))) := by
    push_neg
    constructor
    · positivity
    · exact_mod_cast hi
  simp only [click, hp, hc, hpi, Option.getD_some]
  rw [if_neg hpne, if_neg hcne, if_neg hne, if_neg hbound, htoNat, hj]

/-- In every branch of `pickFinal` the decks are the input decks with the
picked card appended to the picking player's entry. -/
lemma pickFinal_decks (gen : Nat → Nat → List Pack) (player : String) (t i j : Nat)
    (s : ServerState) :
    ((pickFinal gen player t i j s).1).decksByName =
      updateDeck s.decksByName player
        (((s.packsRounds.getD t []).getD i []).getD j ⟨"", ""⟩) := by
  simp only [pickFinal]
  repeat first | rfl | split

/-- In every branch of `pickFinal` the rounds are the input rounds with the
picked card erased from pack `i` of round `t`, possibly with one freshly
generated round appended. -/
lemma pickFinal_packsRounds (gen : Nat → Nat → List Pack) (player : String) (t i j : Nat)
    (s : ServerState) :
    ((pickFinal gen player t i j s).1).packsRounds =
        s.packsRounds.set t ((s.packsRounds.getD t []).set i
          (((s.packsRounds.getD t []).getD i []).eraseIdx j)) ∨
      ((pickFinal gen player t i j s).1).packsRounds =
        s.packsRounds.set t ((s.packsRounds.getD t []).set i
          (((s.packsRounds.getD t []).getD i []).eraseIdx j))
          ++ [gen (s.playersCount.getD s.connectedCount) (s.currentRound + 1)] := by
  simp only [pickFinal]
  repeat first | (exact Or.inl rfl) | (exact Or.inr rfl) | split

/-- The target round of `pickFinal`, read back from the result. -/
lemma pickFinal_packsRounds_getD_t (gen : Nat → Nat → List Pack) (player : String)
    (t i j : Nat) (s : ServerState) (ht : t < s.packsRounds.length) :
    ((pickFinal gen player t i j s).1).packsRounds.getD t [] =
      (s.packsRounds.getD t []).set i
        (((s.packsRounds.getD t []).getD i []).eraseIdx j) := by
  rcases pickFinal_packsRounds gen player t i j s with h | h <;> rw [h]
  · exact getD_set_self _ _ _ _ ht
  · rw [getD_append_left]
    · exact getD_set_self _ _ _ _ ht
    · simpa using ht

/-- Rounds other than the target round are unchanged by `pickFinal`. -/
lemma pickFinal_packsRounds_getD_other (gen : Nat → Nat → List Pack) (player : String)
    (t i j : Nat) (s : ServerState) (r : Nat) (hr : r ≠ t) (hlt : r < s.packsRounds.length) :
    ((pickFinal gen player t i j s).1).packsRounds.getD r [] =
      s.packsRounds.getD r [] := by
  rcases pickFinal_packsRounds gen player t i j s with h | h <;> rw [h]
  · exact getD_set_ne _ _ _ _ _ (Ne.symm hr)
  · rw [getD_append_left]
    · exact getD_set_ne _ _ _ _ _ (Ne.symm hr)
    · simpa using hlt

/-- When the advancement condition of `pickFinal` holds (pick in the
authoritative round, every pack of that round now empty, more rounds to go),
the resulting state is fully determined: next round appended (packs from the
generator, ready flags all false), `currentRound` incremented, and the
result reports `round_advanced`. -/
lemma pickFinal_adv_char (gen : Nat → Nat → List Pack) (player : String) (t i j : Nat)
    (s : ServerState) (ht : t < s.packsRounds.length)
    (hcond : t = s.currentRound ∧
      (((s.packsRounds.getD t []).set i
        (((s.packsRounds.getD t []).getD i []).eraseIdx j)).all
          (fun p => p.length == 0)) = true ∧
      s.currentRound + 1 < s.totalRounds) :
    (pickFinal gen player t i j s).1 =
      { packsRounds := (s.packsRounds.set t ((s.packsRounds.getD t []).set i
          (((s.packsRounds.getD t []).getD i []).eraseIdx j)))
            ++ [gen (s.playersCount.getD s.connectedCount) (s.currentRound + 1)],
        packsReadyRounds :=
          (s.packsReadyRounds.set t ((s.packsReadyRounds.getD t []).set i true))
            ++ [List.replicate (s.playersCount.getD s.connectedCount) false],
        currentRound := s.currentRound + 1,
        totalRounds := s.totalRounds,
        decksByName := updateDeck s.decksByName player
          (((s.packsRounds.getD t []).getD i []).getD j ⟨"", ""⟩),
        playersCount := s.playersCount,
        connectedCount := s.connectedCount } ∧
    ∃ r, (pickFinal gen player t i j s).2 = ClickResult.ok r ∧ r.roundAdvanced = true := by
  have hgd : (s.packsRounds.set t ((s.packsRounds.getD t []).set i
      (((s.packsRounds.getD t []).getD i []).eraseIdx j))).getD t [] =
      (s.packsRounds.getD t []).set i
        (((s.packsRounds.getD t []).getD i []).eraseIdx j) :=
    getD_set_self _ _ _ _ ht
  constructor
  · simp only [pickFinal]
    rw [hgd, if_pos hcond]
    split <;> rfl
  · simp only [pickFinal]
    rw [hgd, if_pos hcond]
    split
    · exact ⟨_, rfl, rfl⟩
    · exact ⟨_, rfl, rfl⟩

/-- When the advancement condition of `pickFinal` fails, `currentRound` and
the shape of the rounds list are unchanged (only round `t`'s packs and ready
flags were touched) and the result reports no round advance. -/
lemma pickFinal_noadv_char (gen : Nat → Nat → List Pack) (player : String) (t i j : Nat)
    (s : ServerState) (ht : t < s.packsRounds.length)
    (hcond : ¬(t = s.currentRound ∧
      (((s.packsRounds.getD t []).set i
        (((s.packsRounds.getD t []).getD i []).eraseIdx j)).all
          (fun p => p.length == 0)) = true ∧
      s.currentRound + 1 < s.totalRounds)) :
    (pickFinal gen player t i j s).1.packsRounds =
      s.packsRounds.set t ((s.packsRounds.getD t []).set i
        (((s.packsRounds.getD t []).getD i []).eraseIdx j)) ∧
    (pickFinal gen player t i j s).1.currentRound = s.currentRound ∧
    ∃ r, (pickFinal gen player t i j s).2 = ClickResult.ok r ∧ r.roundAdvanced = false := by
  have hgd : (s.packsRounds.set t ((s.packsRounds.getD t []).set i
      (((s.packsRounds.getD t []).getD i []).eraseIdx j))).getD t [] =
      (s.packsRounds.getD t []).set i
        (((s.packsRounds.getD t []).getD i []).eraseIdx j) :=
    getD_set_self _ _ _ _ ht
  refine ⟨?_, ?_, ?_⟩
  · simp only [pickFinal]
    rw [hgd, if_neg hcond]
    repeat first | rfl | split
  · simp only [pickFinal]
    rw [hgd, if_neg hcond]
    repeat first | rfl | split
  · simp only [pickFinal]
    rw [hgd, if_neg hcond]
    repeat first | (exact ⟨_, rfl, rfl⟩) | split

lemma getD_concat_length {α : Type} (l : List α) (x d : α) :
    (l ++ [x]).getD l.length d = x := by
  simp [List.getD_eq_getElem?_getD, List.getElem?_concat_length]

/-- Advancement branch of `pickFinal`, result side: under the reachable
invariant `currentRound + 1 = number of rounds` and a non-empty generated
round, the response reports `advanced` with the rotation slot reinterpreted
as `packIndex` modulo the new round's pack count. -/
lemma pickFinal_adv_result (gen : Nat → Nat → List Pack) (player : String) (t i j : Nat)
    (s : ServerState) (ht : t < s.packsRounds.length)
    (hcond : t = s.currentRound ∧
      (((s.packsRounds.getD t []).set i
        (((s.packsRounds.getD t []).getD i []).eraseIdx j)).all
          (fun p => p.length == 0)) = true ∧
      s.currentRound + 1 < s.totalRounds)
    (hinv : s.currentRound + 1 = s.packsRounds.length)
    (hglen : 0 < (gen (s.playersCount.getD s.connectedCount) (s.currentRound + 1)).length) :
    (pickFinal gen player t i j s).2 = ClickResult.ok
      { advanced := true,
        nextIndex :=
          i % (gen (s.playersCount.getD s.connectedCount) (s.currentRound + 1)).length,
        roundAdvanced := true,
        currentRound := s.currentRound + 1,
        deck := getDeck (updateDeck s.decksByName player
          (((s.packsRounds.getD t []).getD i []).getD j ⟨"", ""⟩)) player } := by
  have hgd : (s.packsRounds.set t ((s.packsRounds.getD t []).set i
      (((s.packsRounds.getD t []).getD i []).eraseIdx j))).getD t [] =
      (s.packsRounds.getD t []).set i
        (((s.packsRounds.getD t []).getD i []).eraseIdx j) :=
    getD_set_self _ _ _ _ ht
  have hsetlen : s.currentRound + 1 =
      (s.packsRounds.set t ((s.packsRounds.getD t []).set i
        (((s.packsRounds.getD t []).getD i []).eraseIdx j))).length := by
    simpa using hinv
  have hgd2 : ((s.packsRounds.set t ((s.packsRounds.getD t []).set i
      (((s.packsRounds.getD t []).getD i []).eraseIdx j)))
        ++ [gen (s.playersCount.getD s.connectedCount) (s.currentRound + 1)]).getD
        (s.currentRound + 1) [] =
      gen (s.playersCount.getD s.connectedCount) (s.currentRound + 1) := by
    rw [hsetlen]
    exact getD_concat_length _ _ _
  simp only [pickFinal]
  rw [hgd, if_pos hcond, hgd2, if_pos ?hc2]
  case hc2 =>
    refine ⟨?_, hglen⟩
    simp only [List.length_append, List.length_set, List.length_singleton]
    omega

/-- No-advancement branch of `pickFinal`, full characterization of both the
consume and the wait sub-branches. -/
lemma pickFinal_noadv_result (gen : Nat → Nat → List Pack) (player : String) (t i j : Nat)
    (s : ServerState) (ht : t < s.packsRounds.length) (ht2 : t < s.packsReadyRounds.length)
    (hlen0 : 0 < (s.packsRounds.getD t []).length)
    (hncond : ¬(t = s.currentRound ∧
      (((s.packsRounds.getD t []).set i
        (((s.packsRounds.getD t []).getD i []).eraseIdx j)).all
          (fun p => p.length == 0)) = true ∧
      s.currentRound + 1 < s.totalRounds)) :
    let roundPacks := s.packsRounds.getD t []
    let rp1 := roundPacks.set i ((roundPacks.getD i []).eraseIdx j)
    let card := (roundPacks.getD i []).getD j ⟨"", ""⟩
    let ready1 := (s.packsReadyRounds.getD t []).set i true
    let n0 := (i + 1) % roundPacks.length
    (ready1.getD n0 false = true →
      pickFinal gen player t i j s =
        ({ s with packsRounds := s.packsRounds.set t rp1,
                  packsReadyRounds := s.packsReadyRounds.set t (ready1.set n0 false),
                  decksByName := updateDeck s.decksByName player card },
         ClickResult.ok { advanced := true, nextIndex := n0, roundAdvanced := false,
                          currentRound := s.currentRound,
                          deck := getDeck (updateDeck s.decksByName player card) player })) ∧
    (ready1.getD n0 false = false →
      pickFinal gen player t i j s =
        ({ s with packsRounds := s.packsRounds.set t rp1,
                  packsReadyRounds := s.packsReadyRounds.set t ready1,
                  decksByName := updateDeck s.decksByName player card },
         ClickResult.ok { advanced := false, nextIndex := n0, roundAdvanced := false,
                          currentRound := s.currentRound,
                          deck := getDeck (updateDeck s.decksByName player card) player })) := by
  intro roundPacks rp1 card ready1 n0
  have hgd : (s.packsRounds.set t rp1).getD t [] = rp1 := getD_set_self _ _ _ _ ht
  have hgdr : (s.packsReadyRounds.set t ready1).getD t [] = ready1 :=
    getD_set_self _ _ _ _ ht2
  have hnz : ¬(roundPacks.length = 0) := Nat.pos_iff_ne_zero.mp hlen0
  constructor
  · intro hflag
    simp only [pickFinal]
    rw [hgd, if_neg hncond, if_neg hnz, hgdr, if_pos hflag, List.set_set]
  · intro hflag
    simp only [pickFinal]
    rw [hgd, if_neg hncond, if_neg hnz, hgdr, if_neg (by rw [hflag]; simp)]

end Helpers

/-! Concrete fixtures used by counterexamples and witnesses. -/

def cardA : Card := ⟨"a", ""⟩

def cardB : Card := ⟨"b", ""⟩

def cardC : Card := ⟨"c", ""⟩

/-- A generator producing no packs (its output is irrelevant for picks that
cannot advance the round). -/
def genEmpty : Nat → Nat → List Pack := fun _ _ => []

/-- A generator producing a fixed two-pack round. -/
def genTwo : Nat → Nat → List Pack := fun _ _ => [[cardB], [cardC]]

/-- Two players, round 0 has packs `[[a, b], [c]]`, nothing ready. -/
def stateBasic : ServerState :=
  { packsRounds := [[[cardA, cardB], [cardC]]],
    packsReadyRounds := [[false, false]],
    currentRound := 0, totalRounds := 3,
    decksByName := [], playersCount := some 2, connectedCount := 2 }

/-- Two players, round 0 is `[[a], []]`: the next pick empties the round. -/
def stateAdv : ServerState :=
  { packsRounds := [[[cardA], []]],
    packsReadyRounds := [[false, false]],
    currentRound := 0, totalRounds := 2,
    decksByName := [], playersCount := some 2, connectedCount := 2 }

/-- A completed session: terminal round, both packs exhausted. -/
def stateDone : ServerState :=
  { packsRounds := [[[], []]],
    packsReadyRounds := [[true, false]],
    currentRound := 0, totalRounds := 1,
    decksByName := [("p1", [cardA])], playersCount := some 2, connectedCount := 2 }

/-- A single-player terminal round holding one last card. -/
def stateSolo : ServerState :=
  { packsRounds := [[[cardA]]],
    packsReadyRounds := [[false]],
    currentRound := 0, totalRounds := 1,
    decksByName := [], playersCount := some 1, connectedCount := 1 }

/-- Like `stateBasic` but pack 0 of round 0 is ready for hand-off. -/
def stateReady : ServerState :=
  { packsRounds := [[[cardA, cardB], [cardC]]],
    packsReadyRounds := [[true, false]],
    currentRound := 0, totalRounds := 3,
    decksByName := [], playersCount := some 2, connectedCount := 2 }

/-- The `/click` request "player p1 picks card a from pack 0". -/
def reqA : ClickRequest :=
  { player := some "p1", card := some "a", packIndex := some 0, round := none }

section ClaimC1

/-- Claim C1: a successful pick (non-empty player and card names, pack index
in bounds for the target round, named card present at first index `j`)
removes exactly that one card from the target pack and appends it to the end
of the picking player's deck (entry created if absent); every other pack of
every round and every other deck are untouched, and the multiset of cards
across the target round's packs plus all decks is conserved. -/
theorem pick_conserves_cards (gen : Nat → Nat → List Pack) (req : ClickRequest)
    (s : ServerState) (player cn : String) (i j : Nat)
    (hp : req.player = some player) (hpne : player ≠ "")
    (hc : req.card = some cn) (hcne : cn ≠ "")
    (hpi : req.packIndex = some ((i : Nat) : Int))
    (hi : i < (s.packsRounds.getD (resolveTargetRound req.round s) []).length)
    (hj : findCardIndex cn
      ((s.packsRounds.getD (resolveTargetRound req.round s) []).getD i []) = some j) :
    let t := resolveTargetRound req.round s
    let roundPacks := s.packsRounds.getD t []
    let pack := roundPacks.getD i []
    let card := pack.getD j ⟨"", ""⟩
    let σ := (click gen req s).1
    card.name = cn ∧
    σ.packsRounds.getD t [] = roundPacks.set i (pack.eraseIdx j) ∧
    getDeck σ.decksByName player = getDeck s.decksByName player ++ [card] ∧
    (∀ q, q ≠ player → getDeck σ.decksByName q = getDeck s.decksByName q) ∧
    (∀ k, k ≠ i → (σ.packsRounds.getD t []).getD k [] = roundPacks.getD k []) ∧
    (∀ r, r ≠ t → r < s.packsRounds.length →
      σ.packsRounds.getD r [] = s.packsRounds.getD r []) ∧
    ((↑(σ.packsRounds.getD t []).join : Multiset Card) + ↑(allDeckCards σ.decksByName) =
      (↑roundPacks.join : Multiset Card) + ↑(allDeckCards s.decksByName)) := by
  intro t roundPacks pack card σ
  have hclick := click_eq_pickFinal gen req s player cn i j hp hpne hc hcne hpi hi hj
  have hjlt : j < pack.length := findCardIndex_lt _ _ _ hj
  have ht : t < s.packsRounds.length :=
    lt_length_of_getD_length_pos _ _ (lt_of_le_of_lt (Nat.zero_le i) hi)
  have hpacks : σ.packsRounds.getD t [] = roundPacks.set i (pack.eraseIdx j) := by
    show ((click gen req s).1).packsRounds.getD t [] = _
    rw [hclick]
    exact pickFinal_packsRounds_getD_t gen player t i j s ht
  have hdecks : σ.decksByName = updateDeck s.decksByName player card := by
    show ((click gen req s).1).decksByName = _
    rw [hclick]
    exact pickFinal_decks gen player t i j s
  refine ⟨findCardIndex_name _ _ _ _ hj, hpacks, ?_, ?_, ?_, ?_, ?_⟩
  · rw [hdecks, getDeck_updateDeck_self]
  · intro q hq
    rw [hdecks, getDeck_updateDeck_ne _ _ _ _ hq]
  · intro k hk
    rw [hpacks, getD_set_ne _ _ _ _ _ (Ne.symm hk)]
  · intro r hr hlt
    show ((click gen req s).1).packsRounds.getD r [] = _
    rw [hclick]
    exact pickFinal_packsRounds_getD_other gen player t i j s r hr hlt
  · rw [hpacks, hdecks, allDeckCards_updateDeck]
    have A := coe_join_set roundPacks i (pack.eraseIdx j) hi
    have B := coe_eraseIdx_add pack j hjlt
    have key : (↑(roundPacks.set i (pack.eraseIdx j)).join + {card} : Multiset Card) =
        ↑roundPacks.join := by
      rw [← B] at A
      have A2 : ((↑(roundPacks.set i (pack.eraseIdx j)).join + {card} : Multiset Card)
          + ↑(pack.eraseIdx j)) = ↑roundPacks.join + ↑(pack.eraseIdx j) := by
        calc ((↑(roundPacks.set i (pack.eraseIdx j)).join + {card} : Multiset Card)
              + ↑(pack.eraseIdx j)) =
            ↑(roundPacks.set i (pack.eraseIdx j)).join + (↑(pack.eraseIdx j) + {card}) := by
              abel
          _ = ↑roundPacks.join + ↑(pack.eraseIdx j) := A
      exact add_right_cancel A2
    calc (↑(roundPacks.set i (pack.eraseIdx j)).join : Multiset Card)
          + (↑(allDeckCards s.decksByName) + {card}) =
        (↑(roundPacks.set i (pack.eraseIdx j)).join + {card})
          + ↑(allDeckCards s.decksByName) := by abel
      _ = ↑roundPacks.join + ↑(allDeckCards s.decksByName) := by rw [key]

end ClaimC1

section ClaimC2

/-- Claim C2: a successful pick materializes round `currentRound + 1`
(appending its packs together with an all-false ready row) and increments
`currentRound` if and only if the pick's target round equals the
authoritative `currentRound`, every pack of that round is empty after the
pick, and `currentRound + 1 < totalRounds`.  In particular a pick whose
target round differs from `currentRound` never appends a round and never
changes `currentRound`, and the reachable-state invariant
`currentRound + 1 = number of materialized rounds` is preserved, so round
`k + 1` is generated at most once. -/
theorem round_advance_iff (gen : Nat → Nat → List Pack) (req : ClickRequest)
    (s : ServerState) (player cn : String) (i j : Nat)
    (hp : req.player = some player) (hpne : player ≠ "")
    (hc : req.card = some cn) (hcne : cn ≠ "")
    (hpi : req.packIndex = some ((i : Nat) : Int))
    (hi : i < (s.packsRounds.getD (resolveTargetRound req.round s) []).length)
    (hj : findCardIndex cn
      ((s.packsRounds.getD (resolveTargetRound req.round s) []).getD i []) = some j) :
    let t := resolveTargetRound req.round s
    let roundPacks := s.packsRounds.getD t []
    let rp1 := roundPacks.set i ((roundPacks.getD i []).eraseIdx j)
    let np := s.playersCount.getD s.connectedCount
    let σ := (click gen req s).1
    let adv := t = s.currentRound ∧ (rp1.all (fun p => p.length == 0)) = true ∧
      s.currentRound + 1 < s.totalRounds
    (∃ r, (click gen req s).2 = ClickResult.ok r ∧ (r.roundAdvanced = true ↔ adv)) ∧
    (adv → σ.packsRounds = (s.packsRounds.set t rp1) ++ [gen np (s.currentRound + 1)] ∧
      σ.packsReadyRounds =
        (s.packsReadyRounds.set t ((s.packsReadyRounds.getD t []).set i true))
          ++ [List.replicate np false] ∧
      σ.currentRound = s.currentRound + 1) ∧
    (¬adv → σ.packsRounds = s.packsRounds.set t rp1 ∧ σ.currentRound = s.currentRound ∧
      σ.packsRounds.length = s.packsRounds.length) ∧
    (t ≠ s.currentRound → σ.currentRound = s.currentRound ∧
      σ.packsRounds.length = s.packsRounds.length) ∧
    (s.currentRound + 1 = s.packsRounds.length →
      σ.currentRound + 1 = σ.packsRounds.length) := by
  intro t roundPacks rp1 np σ adv
  have hclick := click_eq_pickFinal gen req s player cn i j hp hpne hc hcne hpi hi hj
  have ht : t < s.packsRounds.length :=
    lt_length_of_getD_length_pos _ _ (lt_of_le_of_lt (Nat.zero_le i) hi)
  by_cases hadv : adv
  · obtain ⟨hst, r, hr, hra⟩ := pickFinal_adv_char gen player t i j s ht hadv
    have hσ : σ = (pickFinal gen player t i j s).1 := by
      show (click gen req s).1 = _
      rw [hclick]
    rw [hst] at hσ
    refine ⟨⟨r, ?_, by simp only [hra]; exact iff_of_true trivial hadv⟩, ?_,
      fun h => absurd hadv h, ?_, ?_⟩
    · show (click gen req s).2 = _
      rw [hclick, hr]
    · intro _
      rw [hσ]
      exact ⟨rfl, rfl, rfl⟩
    · intro hne
      exact absurd hadv.1 hne
    · intro hinv
      rw [hσ]
      simp [hinv]
  · obtain ⟨hpk, hcur, r, hr, hra⟩ := pickFinal_noadv_char gen player t i j s ht hadv
    have hσp : σ.packsRounds = s.packsRounds.set t rp1 := by
      show ((click gen req s).1).packsRounds = _
      rw [hclick]
      exact hpk
    have hσc : σ.currentRound = s.currentRound := by
      show ((click gen req s).1).currentRound = _
      rw [hclick]
      exact hcur
    have hσl : σ.packsRounds.length = s.packsRounds.length := by
      rw [hσp]
      simp
    refine ⟨⟨r, ?_, by simp only [hra]; exact iff_of_false (by simp) hadv⟩,
      fun h => absurd h hadv, ?_, ?_, ?_⟩
    · show (click gen req s).2 = _
      rw [hclick, hr]
    · intro _
      exact ⟨hσp, hσc, hσl⟩
    · intro _
      exact ⟨hσc, hσl⟩
    · intro hinv
      rw [hσc, hσl, hinv]

end ClaimC2

section ClaimC3

/-- Claim C3: every rejected `/click` request (missing player name, missing
card name, no packs loaded, missing or out-of-bounds pack index, or card not
found in the target pack) leaves the entire server state exactly as it was —
whenever `click` reports an error, the returned state is the input state. -/
theorem click_error_no_mutation (gen : Nat → Nat → List Pack) (req : ClickRequest)
    (s : ServerState) (e : ClickError) (h : (click gen req s).2 = ClickResult.error e) :
    (click gen req s).1 = s := by
  rcases click_cases gen req s with ⟨e2, he⟩ | ⟨r, hr⟩
  · rw [he]
  · rw [hr] at h
    cases h

end ClaimC3

/-- Full behaviour of `claim_pack` for an in-bounds pack index: not-ready
error and no state change when the flag is false, otherwise consume the flag
and return the pack plus the caller's deck. -/
lemma claim_pack_spec (req : ClaimRequest) (s : ServerState) (i : Nat)
    (hpi : req.packIndex = some ((i : Nat) : Int))
    (hi : i < (s.packsRounds.getD (resolveTargetRound req.round s) []).length) :
    let t := resolveTargetRound req.round s
    let row := s.packsReadyRounds.getD t []
    (row.getD i false = false →
      claim_pack req s = (s, ClaimResult.error ClaimError.notReady)) ∧
    (row.getD i false = true →
      claim_pack req s =
        ({ s with packsReadyRounds := s.packsReadyRounds.set t (row.set i false) },
         ClaimResult.ok { packIndex := i,
                          pack := (s.packsRounds.getD t []).getD i [],
                          packsReady := row.set i false,
                          deck := getDeck s.decksByName (req.name.getD "") })) := by
  intro t row
  have hne : s.packsRounds ≠ [] := by
    intro h0
    have ht0 : t < s.packsRounds.length :=
      lt_length_of_getD_length_pos _ _ (lt_of_le_of_lt (Nat.zero_le i) hi)
    rw [h0] at ht0
    simp at ht0
  have htoNat : ((i : Int)).toNat = i := Int.toNat_natCast i
  have hbound : ¬((i : Int) < 0 ∨
      (((s.packsRounds.getD t []).length : Int) ≤ (i : Int))) := by
    push_neg
    constructor
    · positivity
    · exact_mod_cast hi
  constructor
  · intro hflag
    simp only [claim_pack, hpi]
    rw [if_neg hne, if_neg hbound, htoNat, if_pos hflag]
  · intro hflag
    simp only [claim_pack, hpi]
    rw [if_neg hne, if_neg hbound, htoNat, if_neg (by rw [hflag]; simp)]

section ClaimC4

/-- Claim C4: for a claim call whose pack index is in bounds for the target
round, the call fails with the not-ready error and changes nothing exactly
when the pack's ready flag is false; when the flag is true the call succeeds,
clears exactly that flag, and returns the pack's current contents together
with the calling participant's deck. -/
theorem claim_ready_iff (req : ClaimRequest) (s : ServerState) (i : Nat)
    (hpi : req.packIndex = some ((i : Nat) : Int))
    (hi : i < (s.packsRounds.getD (resolveTargetRound req.round s) []).length) :
    let t := resolveTargetRound req.round s
    let row := s.packsReadyRounds.getD t []
    (row.getD i false = false →
      claim_pack req s = (s, ClaimResult.error ClaimError.notReady)) ∧
    (row.getD i false = true →
      claim_pack req s =
        ({ s with packsReadyRounds := s.packsReadyRounds.set t (row.set i false) },
         ClaimResult.ok { packIndex := i,
                          pack := (s.packsRounds.getD t []).getD i [],
                          packsReady := row.set i false,
                          deck := getDeck s.decksByName (req.name.getD "") })) :=
  claim_pack_spec req s i hpi hi

end ClaimC4

section ClaimC5

/-- Claim C5, counterexample to the stated rotation slot after a round
advance: player p1 picks the last card from pack 0 of `stateAdv`, the round
advances to a fresh two-pack round, and the code reports
`next_pack_index = 0` (`pack_index mod` the new pack count), not
`(packIndex + 1) mod 2 = 1` as the claim states. -/
theorem advanced_next_index_counterexample :
    (click genTwo reqA stateAdv).2 = ClickResult.ok
      { advanced := true, nextIndex := 0, roundAdvanced := true,
        currentRound := 1, deck := [cardA] } ∧
    (0 + 1) % 2 = 1 ∧ (0 : Nat) ≠ 1 := by
  refine ⟨by decide, by decide, by decide⟩

/-- Claim C5 (amended): a successful pick first sets the picked pack's ready
flag true and computes `nextIndex = (packIndex + 1) mod` the target round's
pack count; if the round did not just advance it consumes `ready[nextIndex]`
and reports advanced when that flag is set, else reports waiting on
`nextIndex`; if the round did just advance it reports advanced with the slot
reinterpreted as `packIndex mod` (not `packIndex + 1 mod`) the new current
round's pack count. -/
theorem pick_handoff_spec (gen : Nat → Nat → List Pack) (req : ClickRequest)
    (s : ServerState) (player cn : String) (i j : Nat)
    (hp : req.player = some player) (hpne : player ≠ "")
    (hc : req.card = some cn) (hcne : cn ≠ "")
    (hpi : req.packIndex = some ((i : Nat) : Int))
    (hi : i < (s.packsRounds.getD (resolveTargetRound req.round s) []).length)
    (hj : findCardIndex cn
      ((s.packsRounds.getD (resolveTargetRound req.round s) []).getD i []) = some j)
    (houter : s.packsReadyRounds.length = s.packsRounds.length)
    (hinv : s.currentRound + 1 = s.packsRounds.length)
    (hglen : 0 < (gen (s.playersCount.getD s.connectedCount) (s.currentRound + 1)).length) :
    let t := resolveTargetRound req.round s
    let roundPacks := s.packsRounds.getD t []
    let rp1 := roundPacks.set i ((roundPacks.getD i []).eraseIdx j)
    let ready1 := (s.packsReadyRounds.getD t []).set i true
    let n0 := (i + 1) % roundPacks.length
    let adv := t = s.currentRound ∧ (rp1.all (fun p => p.length == 0)) = true ∧
      s.currentRound + 1 < s.totalRounds
    let σ := (click gen req s).1
    ∃ r, (click gen req s).2 = ClickResult.ok r ∧
      (¬adv → r.roundAdvanced = false ∧
        (ready1.getD n0 false = true → r.advanced = true ∧ r.nextIndex = n0 ∧
          σ.packsReadyRounds = s.packsReadyRounds.set t (ready1.set n0 false)) ∧
        (ready1.getD n0 false = false → r.advanced = false ∧ r.nextIndex = n0 ∧
          σ.packsReadyRounds = s.packsReadyRounds.set t ready1)) ∧
      (adv → r.roundAdvanced = true ∧ r.advanced = true ∧
        r.nextIndex =
          i % (gen (s.playersCount.getD s.connectedCount) (s.currentRound + 1)).length) := by
  intro t roundPacks rp1 ready1 n0 adv σ
  have hclick := click_eq_pickFinal gen req s player cn i j hp hpne hc hcne hpi hi hj
  have ht : t < s.packsRounds.length :=
    lt_length_of_getD_length_pos _ _ (lt_of_le_of_lt (Nat.zero_le i) hi)
  have ht2 : t < s.packsReadyRounds.length := by omega
  have hlen0 : 0 < roundPacks.length := lt_of_le_of_lt (Nat.zero_le i) hi
  by_cases hadv : adv
  · have hres : (click gen req s).2 = ClickResult.ok
        { advanced := true,
          nextIndex :=
            i % (gen (s.playersCount.getD s.connectedCount) (s.currentRound + 1)).length,
          roundAdvanced := true,
          currentRound := s.currentRound + 1,
          deck := getDeck (updateDeck s.decksByName player
            ((roundPacks.getD i []).getD j ⟨"", ""⟩)) player } := by
      rw [hclick]
      exact pickFinal_adv_result gen player t i j s ht hadv hinv hglen
    exact ⟨_, hres, fun h => absurd hadv h, fun _ => ⟨rfl, rfl, rfl⟩⟩
  · obtain ⟨htrue, hfalse⟩ :=
      pickFinal_noadv_result gen player t i j s ht ht2 hlen0 hadv
    cases hb : ready1.getD n0 false
    · have hres : (click gen req s).2 = ClickResult.ok
          { advanced := false, nextIndex := n0, roundAdvanced := false,
            currentRound := s.currentRound,
            deck := getDeck (updateDeck s.decksByName player
              ((roundPacks.getD i []).getD j ⟨"", ""⟩)) player } := by
        rw [hclick, hfalse hb]
      refine ⟨_, hres, fun _ => ⟨rfl, ?_, ?_⟩, fun h => absurd h hadv⟩
      · intro h
        exact Bool.noConfusion h
      · intro _
        refine ⟨rfl, rfl, ?_⟩
        show ((click gen req s).1).packsReadyRounds = _
        rw [hclick, hfalse hb]
    · have hres : (click gen req s).2 = ClickResult.ok
          { advanced := true, nextIndex := n0, roundAdvanced := false,
            currentRound := s.currentRound,
            deck := getDeck (updateDeck s.decksByName player
              ((roundPacks.getD i []).getD j ⟨"", ""⟩)) player } := by
        rw [hclick, htrue hb]
      refine ⟨_, hres, fun _ => ⟨rfl, ?_, ?_⟩, fun h => absurd h hadv⟩
      · intro _
        refine ⟨rfl, rfl, ?_⟩
        show ((click gen req s).1).packsReadyRounds = _
        rw [hclick, htrue hb]
      · intro h
        exact Bool.noConfusion h

end ClaimC5

/-- After any `pickFinal`, the target round's ready row is the input row
with flag `i` set, possibly with the rotation slot `(i + 1) mod packCount`
cleared again (the pick's own hand-off consumption). -/
lemma pickFinal_ready_row (gen : Nat → Nat → List Pack) (player : String) (t i j : Nat)
    (s : ServerState) (ht2 : t < s.packsReadyRounds.length)
    (hlen0 : 0 < (s.packsRounds.getD t []).length) :
    ((pickFinal gen player t i j s).1).packsReadyRounds.getD t [] =
        (s.packsReadyRounds.getD t []).set i true ∨
    ((pickFinal gen player t i j s).1).packsReadyRounds.getD t [] =
        ((s.packsReadyRounds.getD t []).set i true).set
          ((i + 1) % (s.packsRounds.getD t []).length) false := by
  have hnz : ¬((s.packsRounds.getD t []).length = 0) := Nat.pos_iff_ne_zero.mp hlen0
  have hgdr : (s.packsReadyRounds.set t
      ((s.packsReadyRounds.getD t []).set i true)).getD t [] =
      (s.packsReadyRounds.getD t []).set i true := getD_set_self _ _ _ _ ht2
  simp only [pickFinal]
  split
  · split
    all_goals
      left
      rw [getD_append_left]
      · exact hgdr
      · simpa using ht2
  · split
    · right
      rw [List.set_set, getD_set_self _ _ _ _ ht2, hgdr]
    · left
      exact hgdr

section ClaimC10

/-- Claim C10, counterexample: with a single participant in the terminal
round, picking the last card sets `ready[0]` and then immediately consumes
it through the pick's own hand-off (`nextIndex = (0 + 1) mod 1 = 0`), so the
exhausted pack ends NOT claimable: the subsequent claim fails with the
not-ready error. -/
theorem exhausted_handoff_counterexample :
    ((click genEmpty reqA stateSolo).1).packsReadyRounds = [[false]] ∧
    claim_pack { packIndex := some 0, name := some "p1", round := some 0 }
        (click genEmpty reqA stateSolo).1 =
      ((click genEmpty reqA stateSolo).1, ClaimResult.error ClaimError.notReady) := by
  refine ⟨by decide, by decide⟩

/-- Claim C10 (amended): when the target round has at least two packs, the
pick that removes the last card of pack `i` leaves `ready[i]` true — the
pick's own hand-off consumption touches slot `(i + 1) mod packCount ≠ i` —
so the exhausted pack stays claimable: a subsequent claim of pack `i` in
that round succeeds, consumes the flag, and returns the now-empty pack.
(With a single pack the pick itself consumes the flag, as the
counterexample shows.) -/
theorem exhausted_pack_claimable (gen : Nat → Nat → List Pack) (req : ClickRequest)
    (s : ServerState) (player cn : String) (i j : Nat)
    (hp : req.player = some player) (hpne : player ≠ "")
    (hc : req.card = some cn) (hcne : cn ≠ "")
    (hpi : req.packIndex = some ((i : Nat) : Int))
    (hi : i < (s.packsRounds.getD (resolveTargetRound req.round s) []).length)
    (hj : findCardIndex cn
      ((s.packsRounds.getD (resolveTargetRound req.round s) []).getD i []) = some j)
    (houter : s.packsReadyRounds.length = s.packsRounds.length)
    (hrowlen : (s.packsReadyRounds.getD (resolveTargetRound req.round s) []).length =
      (s.packsRounds.getD (resolveTargetRound req.round s) []).length)
    (hpack1 : ((s.packsRounds.getD (resolveTargetRound req.round s) []).getD i []).length = 1)
    (hN : 1 < (s.packsRounds.getD (resolveTargetRound req.round s) []).length) :
    let t := resolveTargetRound req.round s
    let σ := (click gen req s).1
    (σ.packsReadyRounds.getD t []).getD i false = true ∧
    claim_pack { packIndex := some ((i : Nat) : Int), name := some player,
                 round := some ((t : Nat) : Int) } σ =
      ({ σ with packsReadyRounds :=
          σ.packsReadyRounds.set t ((σ.packsReadyRounds.getD t []).set i false) },
       ClaimResult.ok { packIndex := i, pack := [],
                        packsReady := (σ.packsReadyRounds.getD t []).set i false,
                        deck := getDeck σ.decksByName player }) := by
  intro t σ
  have hclick := click_eq_pickFinal gen req s player cn i j hp hpne hc hcne hpi hi hj
  have hit : i < (s.packsRounds.getD t []).length := hi
  have hrowlent : (s.packsReadyRounds.getD t []).length =
      (s.packsRounds.getD t []).length := hrowlen
  have hpack1t : ((s.packsRounds.getD t []).getD i []).length = 1 := hpack1
  have hNt : 1 < (s.packsRounds.getD t []).length := hN
  have ht : t < s.packsRounds.length :=
    lt_length_of_getD_length_pos _ _ (lt_of_le_of_lt (Nat.zero_le i) hit)
  have ht2 : t < s.packsReadyRounds.length := by omega
  have hlen0 : 0 < (s.packsRounds.getD t []).length := lt_of_le_of_lt (Nat.zero_le i) hit
  have hirow : i < (s.packsReadyRounds.getD t []).length := by omega
  have hn0 : (i + 1) % (s.packsRounds.getD t []).length ≠ i :=
    succ_mod_ne i _ hit hNt
  have hσrr : σ.packsReadyRounds = ((pickFinal gen player t i j s).1).packsReadyRounds := by
    show ((click gen req s).1).packsReadyRounds = _
    rw [hclick]
  -- the flag on the picked pack survives the pick
  have hflag : (σ.packsReadyRounds.getD t []).getD i false = true := by
    rw [hσrr]
    rcases pickFinal_ready_row gen player t i j s ht2 hlen0 with h | h <;> rw [h]
    · exact getD_set_self _ _ _ _ hirow
    · rw [getD_set_ne _ _ _ _ _ hn0]
      exact getD_set_self _ _ _ _ hirow
  -- the picked pack is now empty
  have herase : ((s.packsRounds.getD t []).getD i []).eraseIdx j = [] := by
    apply List.length_eq_zero.mp
    have hjlt : j < ((s.packsRounds.getD t []).getD i []).length :=
      findCardIndex_lt _ _ _ hj
    rw [List.length_eraseIdx]
    simp only [hjlt, if_pos]
    omega


  have hσpk : σ.packsRounds.getD t [] =
      (s.packsRounds.getD t []).set i [] := by
    show ((click gen req s).1).packsRounds.getD t [] = _
    rw [hclick, pickFinal_packsRounds_getD_t gen player t i j s ht, herase]
  have hσlen : t < σ.packsRounds.length := by
    have := pickFinal_packsRounds gen player t i j s
    show t < ((click gen req s).1).packsRounds.length
    rw [hclick]
    rcases this with h | h <;> rw [h] <;> simp <;> omega
  -- the requested round resolves to t in the post-pick state
  have hres : resolveTargetRound (some ((t : Nat) : Int)) σ = t := by
    simp only [resolveTargetRound]
    rw [if_pos]
    · exact Int.toNat_natCast t
    · constructor
      · positivity
      · exact_mod_cast hσlen
  have hi2 : i < (σ.packsRounds.getD
      (resolveTargetRound (some ((t : Nat) : Int)) σ) []).length := by
    rw [hres, hσpk]
    simpa using hi
  obtain ⟨_, hok⟩ := claim_pack_spec
    { packIndex := some ((i : Nat) : Int), name := some player,
      round := some ((t : Nat) : Int) } σ i rfl hi2
  refine ⟨hflag, ?_⟩
  have hok2 := hok (by rw [hres]; exact hflag)
  simp only [hres, Option.getD_some] at hok2
  have hpk2 : (σ.packsRounds.getD t []).getD i [] = [] := by
    rw [hσpk]
    exact getD_set_self _ _ _ _ (by simpa using hi)
  rw [hok2, hpk2]

end ClaimC10

/-- In a state whose every pack of every round is empty, every pack slot a
request can address reads back as the empty pack. -/
lemma pack_empty_of_all_empty (s : ServerState)
    (hempty : ∀ r ∈ s.packsRounds, ∀ p ∈ r, p = ([] : Pack)) (t k : Nat) :
    (s.packsRounds.getD t []).getD k [] = [] := by
  by_cases ht : t < s.packsRounds.length
  · have hmem : s.packsRounds.getD t [] = s.packsRounds[t] :=
      List.getD_eq_getElem _ _ ht
    by_cases hk : k < (s.packsRounds.getD t []).length
    · rw [List.getD_eq_getElem _ _ hk]
      have h1 : s.packsRounds.getD t [] ∈ s.packsRounds := by
        rw [hmem]
        exact List.getElem_mem _
      exact hempty _ h1 _ (List.getElem_mem _)
    · push_neg at hk
      exact List.getD_eq_default _ _ hk
  · push_neg at ht
    rw [List.getD_eq_default _ _ ht]
    simp [List.getD]

section ClaimC6

/-- Claim C6, counterexample to the stated error kind: in the completed
session `stateDone` (terminal round, all packs exhausted), a further pick
attempt fails with the card-not-found error — the code has no
`DraftComplete` error at all (`ClickError` lists every error `/click` can
produce) — though it does mutate nothing. -/
theorem completed_pick_error_counterexample :
    click genEmpty reqA stateDone =
      (stateDone, ClickResult.error ClickError.cardNotFound) := by
  decide

/-- Claim C6 (amended): once the session has reached its terminal round with
every pack of every round empty, every subsequent pick attempt fails — with
one of the argument, index, or card-not-found errors, never a dedicated
`DraftComplete` error, which the code does not have — and mutates nothing. -/
theorem completed_pick_always_fails (gen : Nat → Nat → List Pack) (req : ClickRequest)
    (s : ServerState) (hterm : s.currentRound + 1 = s.totalRounds)
    (hempty : ∀ r ∈ s.packsRounds, ∀ p ∈ r, p = ([] : Pack)) :
    ∃ e, click gen req s = (s, ClickResult.error e) := by
  rcases click_cases gen req s with ⟨e, he⟩ | ⟨r, hr⟩
  · exact ⟨e, he⟩
  · exfalso
    simp only [click] at hr
    split at hr
    · cases hr
    · split at hr
      · cases hr
      · split at hr
        · cases hr
        · split at hr
          · cases hr
          · rename_i pi
            split at hr
            · cases hr
            · split at hr
              · cases hr
              · rename_i j hj
                rw [pack_empty_of_all_empty s hempty _ _] at hj
                simp [findCardIndex] at hj

end ClaimC6

section ClaimC7

/-- Claim C7, counterexample to "every pack is full-size": a non-empty
one-card pool with one participant produces the single pack `[[a]]` of
length 1, not `PACK_SIZE = 14` — the slice is truncated, the recycling only
feeds later packs. -/
theorem fallback_pack_size_counterexample :
    fallbackPacks [cardA] 1 = [[cardA]] ∧
    ((fallbackPacks [cardA] 1).getD 0 []).length = 1 ∧ (1 : Nat) ≠ PACK_SIZE := by
  refine ⟨by decide, by decide, by decide⟩

/-- Claim C7 (amended): FlatPool generation over the shuffled pool returns
exactly N packs, each a front slice of at most `PACK_SIZE` cards of the
sequence remaining at its turn (recycling the just-sliced cards to the end
when fewer than `PACK_SIZE` remain, so repeats across packs are possible);
every pack has exactly `PACK_SIZE` cards whenever the pool holds at least
`PACK_SIZE * N` cards, but smaller pools yield smaller packs. -/
theorem fallback_packs_spec (pool : List Card) (n : Nat) :
    (fallbackPacks pool n).length = n ∧
    (∀ p ∈ fallbackPacks pool n, p.length ≤ PACK_SIZE) ∧
    (PACK_SIZE * n ≤ pool.length → ∀ p ∈ fallbackPacks pool n, p.length = PACK_SIZE) := by
  induction n generalizing pool with
  | zero => simp [fallbackPacks]
  | succ m ih =>
    refine ⟨?_, ?_, ?_⟩
    · simp [fallbackPacks, (ih _).1]
    · intro p hp
      simp only [fallbackPacks, List.mem_cons] at hp
      rcases hp with rfl | hp
      · simp
      · exact (ih _).2.1 p hp
    · intro hlen p hp
      have h14 : PACK_SIZE ≤ pool.length := by
        have : PACK_SIZE * 1 ≤ PACK_SIZE * (m + 1) :=
          Nat.mul_le_mul_left PACK_SIZE (by omega)
        omega
      simp only [fallbackPacks, List.mem_cons] at hp
      rcases hp with rfl | hp
      · simp [h14]
      · have hrest : PACK_SIZE * m ≤ (pool.drop PACK_SIZE).length := by
          simp only [List.length_drop]
          have : PACK_SIZE * (m + 1) = PACK_SIZE * m + PACK_SIZE := by ring
          omega
        have := (ih (pool.drop PACK_SIZE)).2.2 hrest p
        apply this
        simpa [fallbackPacks, if_pos h14] using hp

end ClaimC7

section ClaimC8

lemma chosenLoop_length (sh : List String) (i n : Nat) :
    (chosenLoop sh i n).length = n := by
  induction n generalizing i with
  | zero => rfl
  | succ m ih => simp [chosenLoop, ih]

lemma chosenLoop_getD (sh : List String) (i n k : Nat) (hk : k < n) :
    (chosenLoop sh i n).getD k "" = sh.getD ((i + k) % sh.length) "" := by
  induction n generalizing i k with
  | zero => omega
  | succ m ih =>
    cases k with
    | zero => simp [chosenLoop]
    | succ k0 =>
      simp only [chosenLoop, List.getD_cons_succ]
      rw [ih (i + 1) k0 (by omega)]
      congr 2
      omega

/-- Claim C8: in NamedBundleSet mode the session pre-selects
`participantCount * totalRounds` bundle identifiers by cycling through the
shuffled catalog, and round `r`'s packs are exactly the slice
`[r*N, (r+1)*N)` of that list, each pack being the bundle's own fixed card
sequence (`loadPack`) — pack `k` of round `r` is the bundle at catalog
position `(r*N + k) mod catalogSize` of the shuffled order. -/
theorem bundle_selection_spec (catalog : List String) (setName : String)
    (loadPack : String → List Card) (pool : List Card) (n totalRounds r k : Nat)
    (hset : setName ≠ "") (hn : 0 < n) (hr : r < totalRounds) (hk : k < n) :
    let chosen := chosenFolders catalog (n * totalRounds)
    chosen.length = n * totalRounds ∧
    generate_round_packs chosen setName loadPack pool n r =
      ((chosen.drop (r * n)).take n).map loadPack ∧
    (generate_round_packs chosen setName loadPack pool n r).getD k [] =
      loadPack (catalog.getD ((r * n + k) % catalog.length) "") := by
  intro chosen
  have hchlen : chosen.length = n * totalRounds := chosenLoop_length _ _ _
  have hlt : r * n + k < n * totalRounds := by
    have h1 : (r + 1) * n ≤ totalRounds * n := Nat.mul_le_mul_right n hr
    have h2 : r * n + n = (r + 1) * n := by ring
    have h3 : totalRounds * n = n * totalRounds := by ring
    omega
  have hne : chosen ≠ [] := by
    intro h0
    rw [h0] at hchlen
    simp at hchlen
    omega
  have hbranch : generate_round_packs chosen setName loadPack pool n r =
      ((chosen.drop (r * n)).take n).map loadPack := by
    simp only [generate_round_packs]
    rw [if_pos ⟨hne, hset⟩]
  refine ⟨hchlen, hbranch, ?_⟩
  rw [hbranch]
  have hkdrop : k < (chosen.drop (r * n)).length := by
    simp only [List.length_drop]
    omega
  have hktake : k < ((chosen.drop (r * n)).take n).length := by
    simp only [List.length_take]
    omega
  have hkmap : k < (((chosen.drop (r * n)).take n).map loadPack).length := by
    simpa using hktake
  rw [List.getD_eq_getElem _ _ hkmap]
  simp only [List.getElem_map, List.getElem_take, List.getElem_drop]
  rw [← List.getD_eq_getElem chosen "" (show r * n + k < chosen.length by omega)]
  show loadPack ((chosenLoop catalog 0 (n * totalRounds)).getD (r * n + k) "") = _
  rw [chosenLoop_getD catalog 0 (n * totalRounds) (r * n + k) hlt]
  simp

end ClaimC8

/-! ### Reference-semantics model for the snapshot aliasing claim (C9)

In Python, `packs_rounds` holds references to heap-allocated list objects.
`_current_round_snapshot` (server.py lines 109-126) and `get_packs`
(lines 260-276) place `packs_rounds[current_round]` — the pack objects
themselves, not copies — into the structures handed to readers; the helper
`_deepcopy_rounds` (lines 79-81, "Ensure we don't hold references back into
source lists") is defined but never called anywhere in the repository.  To
express aliasing, this model gives the heap explicitly: packs live in a
heap indexed by reference, and rounds/snapshots hold references. -/

/-- A store of pack objects (`heap`) with rounds holding references into
it, mirroring Python object semantics of `packs_rounds` and
`current_round`. -/
structure HeapStore where
  heap : List Pack
  packsRoundsR : List (List Nat)
  currentRound : Nat
deriving DecidableEq, Repr

/-- `_current_round_snapshot` / `get_packs`: the `packs` entry of the
snapshot is `packs_rounds[current_round]` itself — the references, with no
copy taken. -/
def snapshotPackRefs (s : HeapStore) : List Nat :=
  s.packsRoundsR.getD s.currentRound []

/-- The store's authoritative contents of pack `k` of round `r`. -/
def storePack (s : HeapStore) (r k : Nat) : Pack :=
  s.heap.getD ((s.packsRoundsR.getD r []).getD k 0) []

/-- A reader mutating, in place, the pack object it obtained through a
snapshot reference (e.g. `snapshot['packs'][0].clear()`). -/
def mutateThroughRef (s : HeapStore) (ref : Nat) (newContents : Pack) : HeapStore :=
  { s with heap := s.heap.set ref newContents }

section ClaimC9

/-- Claim C9 is false on the code: the snapshot is not a defensive copy.
With one round holding the one-card pack `[a]`, emptying the pack obtained
from the snapshot changes the authoritative store's pack from `[a]` to
`[]`. -/
theorem snapshot_alias_code_bug :
    storePack { heap := [[cardA]], packsRoundsR := [[0]], currentRound := 0 } 0 0 =
      [cardA] ∧
    storePack
      (mutateThroughRef { heap := [[cardA]], packsRoundsR := [[0]], currentRound := 0 }
        ((snapshotPackRefs
          { heap := [[cardA]], packsRoundsR := [[0]], currentRound := 0 }).getD 0 0) [])
      0 0 = [] := by
  refine ⟨by decide, by decide⟩

end ClaimC9

/-! ### Concrete witnesses: each hypothesis-bearing claim theorem applied at
an explicit input, with every hypothesis discharged by evaluation. -/

/-- A pool of 28 distinct-position cards (two full packs). -/
def poolBig : List Card := List.replicate 28 cardA

/-- "p1 picks card c from pack 1" against `stateBasic`. -/
def reqC : ClickRequest :=
  { player := some "p1", card := some "c", packIndex := some 1, round := none }

/-- A `/click` request with no player name. -/
def reqNoPlayer : ClickRequest :=
  { player := none, card := some "a", packIndex := some 0, round := none }

/-- Witness for C1 at `stateBasic`: p1 picks card a from pack 0. -/
theorem pick_conserves_cards_witness :
    reqA.player = some "p1" ∧ ("p1" : String) ≠ "" ∧
    reqA.card = some "a" ∧ ("a" : String) ≠ "" ∧
    reqA.packIndex = some ((0 : Nat) : Int) ∧
    0 < (stateBasic.packsRounds.getD (resolveTargetRound reqA.round stateBasic) []).length ∧
    findCardIndex "a"
      ((stateBasic.packsRounds.getD (resolveTargetRound reqA.round stateBasic) []).getD 0 [])
      = some 0 ∧
    (let t := resolveTargetRound reqA.round stateBasic
     let roundPacks := stateBasic.packsRounds.getD t []
     let pack := roundPacks.getD 0 []
     let card := pack.getD 0 ⟨"", ""⟩
     let σ := (click genEmpty reqA stateBasic).1
     card.name = "a" ∧
     σ.packsRounds.getD t [] = roundPacks.set 0 (pack.eraseIdx 0) ∧
     getDeck σ.decksByName "p1" = getDeck stateBasic.decksByName "p1" ++ [card] ∧
     (∀ q, q ≠ "p1" → getDeck σ.decksByName q = getDeck stateBasic.decksByName q) ∧
     (∀ k, k ≠ 0 → (σ.packsRounds.getD t []).getD k [] = roundPacks.getD k []) ∧
     (∀ r, r ≠ t → r < stateBasic.packsRounds.length →
       σ.packsRounds.getD r [] = stateBasic.packsRounds.getD r []) ∧
     ((↑(σ.packsRounds.getD t []).join : Multiset Card) + ↑(allDeckCards σ.decksByName) =
       (↑roundPacks.join : Multiset Card) + ↑(allDeckCards stateBasic.decksByName))) :=
  ⟨rfl, by decide, rfl, by decide, by decide, by decide, by decide,
   pick_conserves_cards genEmpty reqA stateBasic "p1" "a" 0 0 rfl (by decide) rfl
     (by decide) (by decide) (by decide) (by decide)⟩

/-- Witness for C2 at `stateAdv` with the two-pack generator: the pick
empties the round, so it advances. -/
theorem round_advance_iff_witness :
    reqA.player = some "p1" ∧ ("p1" : String) ≠ "" ∧
    reqA.card = some "a" ∧ ("a" : String) ≠ "" ∧
    reqA.packIndex = some ((0 : Nat) : Int) ∧
    0 < (stateAdv.packsRounds.getD (resolveTargetRound reqA.round stateAdv) []).length ∧
    findCardIndex "a"
      ((stateAdv.packsRounds.getD (resolveTargetRound reqA.round stateAdv) []).getD 0 [])
      = some 0 ∧
    (let t := resolveTargetRound reqA.round stateAdv
     let roundPacks := stateAdv.packsRounds.getD t []
     let rp1 := roundPacks.set 0 ((roundPacks.getD 0 []).eraseIdx 0)
     let np := stateAdv.playersCount.getD stateAdv.connectedCount
     let σ := (click genTwo reqA stateAdv).1
     let adv := t = stateAdv.currentRound ∧ (rp1.all (fun p => p.length == 0)) = true ∧
       stateAdv.currentRound + 1 < stateAdv.totalRounds
     (∃ r, (click genTwo reqA stateAdv).2 = ClickResult.ok r ∧
       (r.roundAdvanced = true ↔ adv)) ∧
     (adv → σ.packsRounds = (stateAdv.packsRounds.set t rp1)
         ++ [genTwo np (stateAdv.currentRound + 1)] ∧
       σ.packsReadyRounds =
         (stateAdv.packsReadyRounds.set t
           ((stateAdv.packsReadyRounds.getD t []).set 0 true))
           ++ [List.replicate np false] ∧
       σ.currentRound = stateAdv.currentRound + 1) ∧
     (¬adv → σ.packsRounds = stateAdv.packsRounds.set t rp1 ∧
       σ.currentRound = stateAdv.currentRound ∧
       σ.packsRounds.length = stateAdv.packsRounds.length) ∧
     (t ≠ stateAdv.currentRound → σ.currentRound = stateAdv.currentRound ∧
       σ.packsRounds.length = stateAdv.packsRounds.length) ∧
     (stateAdv.currentRound + 1 = stateAdv.packsRounds.length →
       σ.currentRound + 1 = σ.packsRounds.length)) :=
  ⟨rfl, by decide, rfl, by decide, by decide, by decide, by decide,
   round_advance_iff genTwo reqA stateAdv "p1" "a" 0 0 rfl (by decide) rfl
     (by decide) (by decide) (by decide) (by decide)⟩

/-- Witness for C3: a pick with no player name is rejected and the state is
returned unchanged. -/
theorem click_error_no_mutation_witness :
    (click genEmpty reqNoPlayer stateBasic).2 =
      ClickResult.error ClickError.noPlayerName ∧
    (click genEmpty reqNoPlayer stateBasic).1 = stateBasic :=
  ⟨by decide,
   click_error_no_mutation genEmpty reqNoPlayer stateBasic ClickError.noPlayerName
     (by decide)⟩

/-- Witness for C4 at `stateReady`: pack 0's flag is set, so the claim
succeeds and consumes it. -/
theorem claim_ready_iff_witness :
    (ClaimRequest.mk (some ((0 : Nat) : Int)) (some "p1") none).packIndex =
      some ((0 : Nat) : Int) ∧
    0 < (stateReady.packsRounds.getD
      (resolveTargetRound (ClaimRequest.mk (some ((0 : Nat) : Int)) (some "p1") none).round
        stateReady) []).length ∧
    (let t := resolveTargetRound
       (ClaimRequest.mk (some ((0 : Nat) : Int)) (some "p1") none).round stateReady
     let row := stateReady.packsReadyRounds.getD t []
     (row.getD 0 false = false →
       claim_pack (ClaimRequest.mk (some ((0 : Nat) : Int)) (some "p1") none) stateReady =
         (stateReady, ClaimResult.error ClaimError.notReady)) ∧
     (row.getD 0 false = true →
       claim_pack (ClaimRequest.mk (some ((0 : Nat) : Int)) (some "p1") none) stateReady =
         ({ stateReady with
            packsReadyRounds := stateReady.packsReadyRounds.set t (row.set 0 false) },
          ClaimResult.ok { packIndex := 0,
                           pack := (stateReady.packsRounds.getD t []).getD 0 [],
                           packsReady := row.set 0 false,
                           deck := getDeck stateReady.decksByName
                             ((ClaimRequest.mk (some ((0 : Nat) : Int)) (some "p1")
                               none).name.getD "") }))) :=
  ⟨rfl, by decide,
   claim_ready_iff (ClaimRequest.mk (some ((0 : Nat) : Int)) (some "p1") none)
     stateReady 0 rfl (by decide)⟩

/-- Witness for C5 (amended) at `stateAdv` with the two-pack generator. -/
theorem pick_handoff_spec_witness :
    reqA.player = some "p1" ∧ ("p1" : String) ≠ "" ∧
    reqA.card = some "a" ∧ ("a" : String) ≠ "" ∧
    reqA.packIndex = some ((0 : Nat) : Int) ∧
    0 < (stateAdv.packsRounds.getD (resolveTargetRound reqA.round stateAdv) []).length ∧
    findCardIndex "a"
      ((stateAdv.packsRounds.getD (resolveTargetRound reqA.round stateAdv) []).getD 0 [])
      = some 0 ∧
    stateAdv.packsReadyRounds.length = stateAdv.packsRounds.length ∧
    stateAdv.currentRound + 1 = stateAdv.packsRounds.length ∧
    0 < (genTwo (stateAdv.playersCount.getD stateAdv.connectedCount)
      (stateAdv.currentRound + 1)).length ∧
    (let t := resolveTargetRound reqA.round stateAdv
     let roundPacks := stateAdv.packsRounds.getD t []
     let rp1 := roundPacks.set 0 ((roundPacks.getD 0 []).eraseIdx 0)
     let ready1 := (stateAdv.packsReadyRounds.getD t []).set 0 true
     let n0 := (0 + 1) % roundPacks.length
     let adv := t = stateAdv.currentRound ∧ (rp1.all (fun p => p.length == 0)) = true ∧
       stateAdv.currentRound + 1 < stateAdv.totalRounds
     let σ := (click genTwo reqA stateAdv).1
     ∃ r, (click genTwo reqA stateAdv).2 = ClickResult.ok r ∧
       (¬adv → r.roundAdvanced = false ∧
         (ready1.getD n0 false = true → r.advanced = true ∧ r.nextIndex = n0 ∧
           σ.packsReadyRounds = stateAdv.packsReadyRounds.set t (ready1.set n0 false)) ∧
         (ready1.getD n0 false = false → r.advanced = false ∧ r.nextIndex = n0 ∧
           σ.packsReadyRounds = stateAdv.packsReadyRounds.set t ready1)) ∧
       (adv → r.roundAdvanced = true ∧ r.advanced = true ∧
         r.nextIndex = 0 % (genTwo (stateAdv.playersCount.getD stateAdv.connectedCount)
           (stateAdv.currentRound + 1)).length)) :=
  ⟨rfl, by decide, rfl, by decide, by decide, by decide, by decide, by decide, by decide,
   by decide,
   pick_handoff_spec genTwo reqA stateAdv "p1" "a" 0 0 rfl (by decide) rfl (by decide)
     (by decide) (by decide) (by decide) (by decide) (by decide) (by decide)⟩

/-- Witness for C6 (amended) at the completed session `stateDone`. -/
theorem completed_pick_always_fails_witness :
    stateDone.currentRound + 1 = stateDone.totalRounds ∧
    (∀ r ∈ stateDone.packsRounds, ∀ p ∈ r, p = ([] : Pack)) ∧
    (∃ e, click genEmpty reqA stateDone = (stateDone, ClickResult.error e)) :=
  ⟨by decide, by decide,
   completed_pick_always_fails genEmpty reqA stateDone (by decide) (by decide)⟩

/-- Witness for C7 (amended): a 28-card pool and two participants give two
full packs of `PACK_SIZE` cards. -/
theorem fallback_packs_spec_witness :
    (fallbackPacks poolBig 2).length = 2 ∧
    (∀ p ∈ fallbackPacks poolBig 2, p.length ≤ PACK_SIZE) ∧
    PACK_SIZE * 2 ≤ poolBig.length ∧
    (∀ p ∈ fallbackPacks poolBig 2, p.length = PACK_SIZE) :=
  ⟨(fallback_packs_spec poolBig 2).1, (fallback_packs_spec poolBig 2).2.1, by decide,
   (fallback_packs_spec poolBig 2).2.2 (by decide)⟩

/-- Witness for C8: a three-bundle catalog, two players, two rounds; pack 1
of round 1 is the bundle at position `(1*2 + 1) mod 3 = 0`. -/
theorem bundle_selection_spec_witness :
    ("s" : String) ≠ "" ∧ (0 : Nat) < 2 ∧ (1 : Nat) < 2 ∧ (1 : Nat) < 2 ∧
    (let chosen := chosenFolders ["x", "y", "z"] (2 * 2)
     chosen.length = 2 * 2 ∧
     generate_round_packs chosen "s" (fun nm => [⟨nm, ""⟩]) [] 2 1 =
       ((chosen.drop (1 * 2)).take 2).map (fun nm => [⟨nm, ""⟩]) ∧
     (generate_round_packs chosen "s" (fun nm => [⟨nm, ""⟩]) [] 2 1).getD 1 [] =
       (fun nm => ([⟨nm, ""⟩] : List Card))
         ((["x", "y", "z"] : List String).getD ((1 * 2 + 1) % (["x", "y", "z"] :
           List String).length) "")) :=
  ⟨by decide, by decide, by decide, by decide,
   bundle_selection_spec ["x", "y", "z"] "s" (fun nm => [⟨nm, ""⟩]) [] 2 2 1 1
     (by decide) (by decide) (by decide) (by decide)⟩

/-- Witness for C10 (amended) at `stateBasic`: p1 picks the last card of
pack 1 (a two-pack round), the flag stays set, and the empty pack can then
be claimed. -/
theorem exhausted_pack_claimable_witness :
    reqC.player = some "p1" ∧ ("p1" : String) ≠ "" ∧
    reqC.card = some "c" ∧ ("c" : String) ≠ "" ∧
    reqC.packIndex = some ((1 : Nat) : Int) ∧
    1 < (stateBasic.packsRounds.getD (resolveTargetRound reqC.round stateBasic) []).length ∧
    findCardIndex "c"
      ((stateBasic.packsRounds.getD (resolveTargetRound reqC.round stateBasic) []).getD 1 [])
      = some 0 ∧
    stateBasic.packsReadyRounds.length = stateBasic.packsRounds.length ∧
    (stateBasic.packsReadyRounds.getD (resolveTargetRound reqC.round stateBasic) []).length =
      (stateBasic.packsRounds.getD (resolveTargetRound reqC.round stateBasic) []).length ∧
    ((stateBasic.packsRounds.getD (resolveTargetRound reqC.round stateBasic) []).getD 1
      []).length = 1 ∧
    (let t := resolveTargetRound reqC.round stateBasic
     let σ := (click genEmpty reqC stateBasic).1
     (σ.packsReadyRounds.getD t []).getD 1 false = true ∧
     claim_pack { packIndex := some ((1 : Nat) : Int), name := some "p1",
                  round := some ((t : Nat) : Int) } σ =
       ({ σ with packsReadyRounds :=
           σ.packsReadyRounds.set t ((σ.packsReadyRounds.getD t []).set 1 false) },
        ClaimResult.ok { packIndex := 1, pack := [],
                         packsReady := (σ.packsReadyRounds.getD t []).set 1 false,
                         deck := getDeck σ.decksByName "p1" })) :=
  ⟨rfl, by decide, rfl, by decide, by decide, by decide, by decide, by decide, by decide,
   by decide,
   exhausted_pack_claimable genEmpty reqC stateBasic "p1" "c" 1 0 rfl (by decide) rfl
     (by decide) (by decide) (by decide) (by decide) (by decide) (by decide) (by decide)
     (by decide)⟩

end InfiniteDraft
